import Mathlib

/-!
Verification of the `mock` module of `xk6-mock-server` (package `mock`,
file `http.go`): the HTTP-verb call wrapper (`wrap`), the body normalizer
(`parseBody`), the verb registration (`wrapHTTPExports`) and the URL
rewriter (`rewrite`).

The sobek JavaScript runtime values are shallowly embedded as the
inductive `Value`; mutable sobek objects live in an explicit `Heap`
(association list from object id to attribute list), and every mutating
Go function becomes a Lean function returning the new heap.  A Go panic
(such as out-of-range slice indexing, or `common.Throw`) is modelled as
`Except.error`.
-/

namespace Mock

/-- A sobek JavaScript value: `undefined`, `null`, booleans, numbers,
strings, or a reference to a mutable object in the heap. -/
inductive Value where
  | undefined
  | null
  | boolean (b : Bool)
  | num (n : Int)
  | str (s : String)
  | obj (id : Nat)
  deriving DecidableEq, Repr

/-- The attribute list of a sobek object: association list from attribute
name to value (first match wins, as in `Object.Get`). -/
abbrev Fields := List (String × Value)

/-- The heap of mutable sobek objects, keyed by object id. -/
abbrev Heap := List (Nat × Fields)

/-- `Object.Get` on an attribute list: the first binding of the name, or
`none` (Go `nil`) when the attribute is absent. -/
def getAttr : Fields → String → Option Value
  | [], _ => none
  | (k, v) :: rest, name => if k = name then some v else getAttr rest name

/-- `Object.Set` on an attribute list: replace the first binding of the
name, or append a fresh binding when the attribute is absent. -/
def setAttr : Fields → String → Value → Fields
  | [], name, v => [(name, v)]
  | (k, w) :: rest, name, v =>
      if k = name then (name, v) :: rest else (k, w) :: setAttr rest name v

/-- Look up the attribute list of the object with the given id. -/
def heapObj : Heap → Nat → Option Fields
  | [], _ => none
  | (i, fs) :: rest, id => if i = id then some fs else heapObj rest id

/-- `Object.Get` through the heap: read attribute `name` of object `id`.
`none` models Go `nil` (absent attribute or unknown object). -/
def heapGet (heap : Heap) (id : Nat) (name : String) : Option Value :=
  match heapObj heap id with
  | none => none
  | some fs => getAttr fs name

/-- `Object.Set` through the heap: write attribute `name` of object `id`.
Unknown ids leave the heap unchanged (never reached by the code). -/
def heapSet : Heap → Nat → String → Value → Heap
  | [], _, _, _ => []
  | (i, fs) :: rest, id, name, v =>
      if i = id then (i, setAttr fs name v) :: rest
      else (i, fs) :: heapSet rest id name v

/-- `Value.Export().(string)`: the Go string carried by a sobek string
value, `none` for every other value (the ok-form type assertion fails). -/
def exportString : Value → Option String
  | .str s => some s
  | _ => none

/-- The Lookup Table: string-to-string mapping from original URL to
replacement URL (`mod.lookup`). -/
abbrev LookupTable := List (String × String)

/-- Exact-match lookup in the Lookup Table. -/
def tableFind : LookupTable → String → Option String
  | [], _ => none
  | (k, v) :: rest, u => if k = u then some v else tableFind rest u

/-- The module instance: its URL lookup table and the runtime global
object (`mod.runtime().GlobalObject()`), which the wrapper passes as the
receiver of the original callable. -/
structure Module where
  lookup : LookupTable
  globalObj : Value

/-- Modelled from the spec: the URL Rewriter (the repository function
`Module.rewrite`, whose definition is not among the provided source
files; only its call site in `wrap` is).  Spec 4.1: if the value is
textual and present as a key in the Lookup Table, return the mapped
replacement; otherwise return the value unchanged.  No error is ever
raised: an absent key, a non-string value, or an empty table are all
"no rewrite". -/
def Module.rewrite (mod : Module) (v : Value) : Value :=
  match v with
  | .str s =>
      match tableFind mod.lookup s with
      | some t => .str t
      | none => .str s
  | _ => v

/-- Modelled from the spec: the write-back form used at the call site
`mod.rewrite(call.Arguments, index)` — apply the URL Rewriter to the
argument at `index` and write the result back into that slot; out of
range leaves the sequence unchanged (the wrapper's length guard makes
that case unreachable). -/
def Module.rewriteArgs (mod : Module) (args : List Value) (index : Nat) : List Value :=
  match args[index]? with
  | some v => args.set index (mod.rewrite v)
  | none => args

/-- `Module.parseBody` from `http.go`: inspect `args[index]`; if it is a
sobek object, read its `body` attribute; skip silently when the body is
`nil`/undefined or does not export to a Go string; otherwise re-set the
`body` attribute to that same string.  Indexing `args[index]` out of
range is a Go slice panic, modelled as `Except.error`. -/
def Module.parseBody (heap : Heap) (args : List Value) (index : Nat) :
    Except String Heap :=
  match args[index]? with
  | none => .error "index out of range"
  | some arg =>
    match arg with
    | .obj id =>
      match heapGet heap id "body" with
      | none => .ok heap
      | some bodyVal =>
        if bodyVal = .undefined then .ok heap
        else
          match exportString bodyVal with
          | some body => .ok (heapSet heap id "body" (.str body))
          | none => .ok heap
    | _ => .ok heap

/-- A sobek callable: receiver ("this"), heap, positional arguments; it
either fails (a thrown JavaScript error, carried as a string) or returns
the new heap and a result value. -/
def Callable := Value → Heap → List Value → Except String (Heap × Value)

/-- An attribute of a wrap target object: either a plain (non-callable)
value or a callable (`sobek.AssertFunction` succeeds exactly on the
latter). -/
inductive Attr where
  | val (v : Value)
  | fn (f : Callable)

/-- A wrap target object: association list from attribute name to
attribute. -/
abbrev TargetObj := List (String × Attr)

/-- `Object.Get` on a wrap target object. -/
def getMethod : TargetObj → String → Option Attr
  | [], _ => none
  | (k, a) :: rest, name => if k = name then some a else getMethod rest name

/-- `Object.Set` on a wrap target object. -/
def setMethod : TargetObj → String → Attr → TargetObj
  | [], name, a => [(name, a)]
  | (k, b) :: rest, name, a =>
      if k = name then (name, a) :: rest else (k, b) :: setMethod rest name a

/-- The argument-mutation phase of the wrapper body (`http.go` lines
64-69): when the call carries more arguments than `index`, rewrite the
argument at `index` and then run `parseBody` on the mutated sequence;
otherwise leave heap and arguments untouched. -/
def Module.applyMutations (mod : Module) (index : Nat) (heap : Heap)
    (args : List Value) : Except String (Heap × List Value) :=
  if args.length > index then
    let mutated := mod.rewriteArgs args index
    (Module.parseBody heap mutated index).map (fun h => (h, mutated))
  else
    .ok (heap, args)

/-- The wrapper closure installed by `wrap` (`http.go` lines 63-77): run
the mutation phase, then invoke the original callable against the
runtime's global object with the (possibly mutated) arguments; a failure
of the original callable is re-thrown unchanged (`common.Throw`), and
its return value is returned unchanged. -/
def Module.wrapper (mod : Module) (index : Nat) (original : Callable) : Callable :=
  fun _this heap args =>
    match mod.applyMutations index heap args with
    | .error e => .error e
    | .ok (heap1, args1) => original mod.globalObj heap1 args1

/-- The error message of `mod.throwf("%s must be callable", errInvalidArg, method)`. -/
def throwfNotCallable (method : String) : String :=
  "invalid argument: " ++ method ++ " must be callable"

/-- `Module.wrap` from `http.go`: read the attribute named `method`; if
`sobek.AssertFunction` fails (attribute absent or not callable), throw a
fatal setup error; otherwise replace the attribute with the wrapper
closure around the original callable. -/
def Module.wrap (mod : Module) (this : TargetObj) (method : String)
    (index : Nat) : Except String TargetObj :=
  match getMethod this method with
  | some (.fn original) =>
      .ok (setMethod this method (.fn (mod.wrapper index original)))
  | _ => .error (throwfNotCallable method)

/-- `urlFirstMethods` from `http.go`: verbs whose mutable argument is at
index 0. -/
def urlFirstMethods : List String :=
  ["get", "head", "post", "put", "patch", "options", "del"]

/-- `urlSecondMethods` from `http.go`: verbs whose mutable argument is at
index 1. -/
def urlSecondMethods : List String :=
  ["request", "asyncRequest"]

/-- `Module.wrapHTTPExports` from `http.go`: wrap every verb of
`urlFirstMethods` at index 0, then every verb of `urlSecondMethods` at
index 1, threading the target object through. -/
def Module.wrapHTTPExports (mod : Module) (defaults : TargetObj) :
    Except String TargetObj := do
  let o1 ← urlFirstMethods.foldlM (fun o m => mod.wrap o m 0) defaults
  urlSecondMethods.foldlM (fun o m => mod.wrap o m 1) o1

/-- The method-name/argument-index pairs registered by
`wrapHTTPExports`, in registration order. -/
def httpRegistrations : List (String × Nat) :=
  urlFirstMethods.map (fun m => (m, 0)) ++ urlSecondMethods.map (fun m => (m, 1))

/-- Run `parseBody` as a heap transformer; the fault case (out-of-range
index, never reached under the wrapper's guard) keeps the heap. -/
def parseBodyRun (heap : Heap) (args : List Value) (index : Nat) : Heap :=
  match Module.parseBody heap args index with
  | .ok h => h
  | .error _ => heap

/-- Iterate `parseBody` `n` times on the heap (for the idempotence
claim about text bodies). -/
def parseBodyIter : Nat → Heap → List Value → Nat → Heap
  | 0, heap, _, _ => heap
  | n + 1, heap, args, index => parseBodyIter n (parseBodyRun heap args index) args index

/-- An example module for concrete witnesses: the lookup table of the
test `TestModuleWrap`, with object id 0 standing for the global object. -/
def exModule : Module :=
  { lookup := [("https://example.com", "https://example.net")], globalObj := .obj 0 }

/-- An example original callable that succeeds without touching the
heap. -/
def idCallable : Callable := fun _ heap _ => .ok (heap, .undefined)

/-- An example original callable that always fails. -/
def failCallable : Callable := fun _ _ _ => .error "boom"

section Lemmas

theorem getAttr_setAttr (fs : Fields) (name : String) (v : Value) :
    getAttr (setAttr fs name v) name = some v := by
  induction fs with
  | nil => simp [setAttr, getAttr]
  | cons p rest ih =>
    obtain ⟨k, w⟩ := p
    by_cases hk : k = name <;> simp [setAttr, getAttr, hk, ih]

theorem heapObj_heapSet (heap : Heap) (id : Nat) (name : String) (v : Value)
    (fs : Fields) (h : heapObj heap id = some fs) :
    heapObj (heapSet heap id name v) id = some (setAttr fs name v) := by
  induction heap with
  | nil => simp [heapObj] at h
  | cons p rest ih =>
    obtain ⟨i, gs⟩ := p
    by_cases hi : i = id
    · simp [heapObj, hi] at h
      simp [heapSet, heapObj, hi, h]
    · simp [heapObj, hi] at h
      simp [heapSet, heapObj, hi, ih h]

theorem heapGet_heapSet (heap : Heap) (id : Nat) (name : String) (v : Value)
    (fs : Fields) (h : heapObj heap id = some fs) :
    heapGet (heapSet heap id name v) id name = some v := by
  simp only [heapGet, heapObj_heapSet heap id name v fs h]
  exact getAttr_setAttr fs name v

theorem getMethod_setMethod (target : TargetObj) (name : String) (a : Attr) :
    getMethod (setMethod target name a) name = some a := by
  induction target with
  | nil => simp [setMethod, getMethod]
  | cons p rest ih =>
    obtain ⟨k, b⟩ := p
    by_cases hk : k = name <;> simp [setMethod, getMethod, hk, ih]

theorem rewriteArgs_length (mod : Module) (args : List Value) (index : Nat) :
    (mod.rewriteArgs args index).length = args.length := by
  unfold Module.rewriteArgs
  cases args[index]? <;> simp

theorem rewriteArgs_get_ne (mod : Module) (args : List Value) (index j : Nat)
    (h : j ≠ index) :
    (mod.rewriteArgs args index)[j]? = args[j]? := by
  unfold Module.rewriteArgs
  cases args[index]? with
  | none => rfl
  | some v => exact List.getElem?_set_ne (fun he => h he.symm)

theorem parseBody_isOk (heap : Heap) (args : List Value) (index : Nat)
    (h : index < args.length) :
    ∃ heap1, Module.parseBody heap args index = Except.ok heap1 := by
  cases hv : args[index]? with
  | none =>
    rw [List.getElem?_eq_none_iff] at hv
    omega
  | some arg =>
    cases arg with
    | obj id =>
      cases hb : heapGet heap id "body" with
      | none => exact ⟨heap, by simp [Module.parseBody, hv, hb]⟩
      | some bodyVal =>
        by_cases hu : bodyVal = Value.undefined
        · exact ⟨heap, by simp [Module.parseBody, hv, hb, hu]⟩
        · cases he : exportString bodyVal with
          | none => exact ⟨heap, by simp [Module.parseBody, hv, hb, hu, he]⟩
          | some body =>
            exact ⟨heapSet heap id "body" (Value.str body),
              by simp [Module.parseBody, hv, hb, hu, he]⟩
    | undefined => exact ⟨heap, by simp [Module.parseBody, hv]⟩
    | null => exact ⟨heap, by simp [Module.parseBody, hv]⟩
    | boolean b => exact ⟨heap, by simp [Module.parseBody, hv]⟩
    | num n => exact ⟨heap, by simp [Module.parseBody, hv]⟩
    | str s => exact ⟨heap, by simp [Module.parseBody, hv]⟩

theorem applyMutations_isOk (mod : Module) (index : Nat) (heap : Heap)
    (args : List Value) :
    ∃ heap1 args1, mod.applyMutations index heap args = Except.ok (heap1, args1) := by
  unfold Module.applyMutations
  by_cases h : args.length > index
  · have hlen : index < (mod.rewriteArgs args index).length := by
      rw [rewriteArgs_length]; omega
    obtain ⟨heap1, hok⟩ := parseBody_isOk heap _ index hlen
    exact ⟨heap1, mod.rewriteArgs args index, by simp [h, hok, Except.map]⟩
  · exact ⟨heap, args, by simp [h]⟩

theorem parseBody_str_eq (heap : Heap) (args : List Value) (index : Nat)
    (id : Nat) (s : String)
    (hidx : args[index]? = some (Value.obj id))
    (hbody : heapGet heap id "body" = some (Value.str s)) :
    Module.parseBody heap args index
      = Except.ok (heapSet heap id "body" (Value.str s)) := by
  simp [Module.parseBody, hidx, hbody, exportString]

end Lemmas

/-- Claim C1: for every string key present in the Lookup Table, `rewrite`
returns the mapped replacement value; for every other input — a string
absent from the table, a non-string value, or any value when the table is
empty — `rewrite` returns the input unchanged.  (`rewrite` is a total
function: no error is ever raised.) -/
theorem rewrite_spec (mod : Module) :
    (∀ k v, tableFind mod.lookup k = some v →
        mod.rewrite (Value.str k) = Value.str v) ∧
    (∀ s, tableFind mod.lookup s = none →
        mod.rewrite (Value.str s) = Value.str s) ∧
    (∀ x, (∀ s, x ≠ Value.str s) → mod.rewrite x = x) ∧
    (mod.lookup = [] → ∀ x, mod.rewrite x = x) := by
  refine ⟨?_, ?_, ?_, ?_⟩
  · intro k v h
    simp [Module.rewrite, h]
  · intro s h
    simp [Module.rewrite, h]
  · intro x hx
    cases x with
    | str s => exact absurd rfl (hx s)
    | undefined => rfl
    | null => rfl
    | boolean b => rfl
    | num n => rfl
    | obj id => rfl
  · intro hempty x
    cases x with
    | str s => simp [Module.rewrite, hempty, tableFind]
    | undefined => rfl
    | null => rfl
    | boolean b => rfl
    | num n => rfl
    | obj id => rfl

/-- Witness for C1 at the test table of `TestModuleWrap`: a present key
is mapped, an absent key, a number, and any input against the empty
table pass through unchanged. -/
theorem rewrite_spec_witness :
    exModule.rewrite (Value.str "https://example.com")
        = Value.str "https://example.net" ∧
    exModule.rewrite (Value.str "https://other.com")
        = Value.str "https://other.com" ∧
    exModule.rewrite (Value.num 7) = Value.num 7 ∧
    (Module.mk [] (Value.obj 0)).rewrite (Value.str "https://example.com")
        = Value.str "https://example.com" :=
  ⟨(rewrite_spec exModule).1 "https://example.com" "https://example.net" (by decide),
   (rewrite_spec exModule).2.1 "https://other.com" (by decide),
   (rewrite_spec exModule).2.2.1 (Value.num 7) (fun s h => Value.noConfusion h),
   (rewrite_spec (Module.mk [] (Value.obj 0))).2.2.2 rfl (Value.str "https://example.com")⟩

/-- Claim C2: `wrap` raises a fatal setup failure when the attribute
named `method` is absent or not callable; when the attribute is
callable, `wrap` succeeds, installs the wrapper in place of the
attribute, and every subsequent invocation of the replaced attribute
reaches the original callable (against the global receiver, at some
heap and argument list). -/
theorem wrap_setup (mod : Module) (target : TargetObj) (method : String)
    (index : Nat) :
    ((∀ f, getMethod target method ≠ some (Attr.fn f)) →
        mod.wrap target method index = Except.error (throwfNotCallable method)) ∧
    (∀ f, getMethod target method = some (Attr.fn f) →
      ∃ target1,
        mod.wrap target method index = Except.ok target1 ∧
        getMethod target1 method = some (Attr.fn (mod.wrapper index f)) ∧
        ∀ recv heap args, ∃ heap1 args1,
          mod.wrapper index f recv heap args = f mod.globalObj heap1 args1) := by
  constructor
  · intro hno
    cases hg : getMethod target method with
    | none => simp [Module.wrap, hg]
    | some a =>
      cases a with
      | val v => simp [Module.wrap, hg]
      | fn f => exact absurd hg (hno f)
  · intro f hf
    refine ⟨setMethod target method (Attr.fn (mod.wrapper index f)),
      by simp [Module.wrap, hf], getMethod_setMethod target method _, ?_⟩
    intro recv heap args
    obtain ⟨heap1, args1, hm⟩ := applyMutations_isOk mod index heap args
    exact ⟨heap1, args1, by simp [Module.wrapper, hm]⟩

/-- Witness for C2: wrapping the non-callable attribute `not_a_func`
fails with the setup error (as in `TestModuleWrap`), and wrapping the
callable attribute `method` succeeds and reaches the original. -/
theorem wrap_setup_witness :
    (exModule.wrap [("not_a_func", Attr.val (Value.num 1))] "not_a_func" 1
        = Except.error (throwfNotCallable "not_a_func")) ∧
    ∃ target1,
      exModule.wrap [("method", Attr.fn idCallable)] "method" 0 = Except.ok target1 ∧
      getMethod target1 "method" = some (Attr.fn (exModule.wrapper 0 idCallable)) ∧
      ∀ recv heap args, ∃ heap1 args1,
        exModule.wrapper 0 idCallable recv heap args
          = idCallable exModule.globalObj heap1 args1 :=
  ⟨(wrap_setup exModule [("not_a_func", Attr.val (Value.num 1))] "not_a_func" 1).1
      (fun f h => by simp [getMethod] at h),
   (wrap_setup exModule [("method", Attr.fn idCallable)] "method" 0).2 idCallable
      (by simp [getMethod])⟩

/-- Claim C3: a wrapped call carrying at most `index` arguments skips
both URL rewriting and body normalization and still invokes the
original callable with exactly the original heap and the original,
unmodified short argument list. -/
theorem wrapper_short_args (mod : Module) (index : Nat) (original : Callable)
    (recv : Value) (heap : Heap) (args : List Value)
    (h : args.length ≤ index) :
    mod.wrapper index original recv heap args
      = original mod.globalObj heap args := by
  simp [Module.wrapper, Module.applyMutations, Nat.not_lt.mpr h]

/-- Witness for C3: one argument against configured index 1 reaches the
original callable untouched. -/
theorem wrapper_short_args_witness :
    exModule.wrapper 1 idCallable Value.undefined [] [Value.str "https://example.com"]
      = idCallable exModule.globalObj [] [Value.str "https://example.com"] :=
  wrapper_short_args exModule 1 idCallable Value.undefined []
    [Value.str "https://example.com"] (by decide)

/-- Counterexample to C4: the registration list of `wrapHTTPExports`
does not contain the verb `delete` at index 0 (nor at all); the seventh
index-0 verb is `del`. -/
theorem httpRegistrations_delete_missing :
    ("delete", 0) ∉ httpRegistrations ∧ ("del", 0) ∈ httpRegistrations := by
  decide

/-- Claim C4 (amended: the seventh index-0 verb is `del`, not `delete`):
`wrapHTTPExports` registers exactly the verbs `get`, `head`, `post`,
`put`, `patch`, `options`, `del` with mutable-argument index 0, and
exactly the verbs `request` and `asyncRequest` with index 1, in that
order. -/
theorem wrapHTTPExports_registered (mod : Module) (defaults : TargetObj) :
    httpRegistrations
      = [("get", 0), ("head", 0), ("post", 0), ("put", 0), ("patch", 0),
         ("options", 0), ("del", 0), ("request", 1), ("asyncRequest", 1)] ∧
    mod.wrapHTTPExports defaults
      = httpRegistrations.foldlM (fun o p => mod.wrap o p.1 p.2) defaults := by
  refine ⟨rfl, ?_⟩
  simp [Module.wrapHTTPExports, httpRegistrations, List.foldlM_append, List.foldlM_map]

/-- Counterexample to C5: `parseBody` called with an out-of-range index
does not return silently — indexing `args[index]` is a Go slice panic
(here the error value), reached before any shape check. -/
theorem parseBody_out_of_range_faults :
    Module.parseBody ([] : Heap) ([] : List Value) 0
      = Except.error "index out of range" := rfl

/-- Claim C5 (amended: restricted to an in-range index; an out-of-range
index faults on the slice access — the wrapper's length guard keeps
`parseBody` from ever being called out of range): when the value at an
in-range `index` is a primitive or otherwise not a structured
attribute-bearing value, `parseBody` returns silently with no mutation
and no error. -/
theorem parseBody_nonstructured_silent (heap : Heap) (args : List Value)
    (index : Nat) (arg : Value) (hidx : args[index]? = some arg)
    (hno : ∀ id, arg ≠ Value.obj id) :
    Module.parseBody heap args index = Except.ok heap := by
  cases arg with
  | obj id => exact absurd rfl (hno id)
  | undefined => simp [Module.parseBody, hidx]
  | null => simp [Module.parseBody, hidx]
  | boolean b => simp [Module.parseBody, hidx]
  | num n => simp [Module.parseBody, hidx]
  | str s => simp [Module.parseBody, hidx]

/-- Witness for C5 (amended): a primitive number argument is skipped
silently. -/
theorem parseBody_nonstructured_silent_witness :
    Module.parseBody [] [Value.num 5] 0 = Except.ok [] :=
  parseBody_nonstructured_silent [] [Value.num 5] 0 (Value.num 5) rfl
    (fun id h => Value.noConfusion h)

/-- Claim C6: a request-description argument whose `body` attribute is
absent, undefined, or a non-text structured value leads to no error and
no mutation — `parseBody` returns the heap exactly as it was. -/
theorem parseBody_body_noop (heap : Heap) (args : List Value) (index : Nat)
    (id : Nat) (hidx : args[index]? = some (Value.obj id))
    (hbody : heapGet heap id "body" = none ∨
             heapGet heap id "body" = some Value.undefined ∨
             ∃ bid, heapGet heap id "body" = some (Value.obj bid)) :
    Module.parseBody heap args index = Except.ok heap := by
  rcases hbody with hb | hb | ⟨bid, hb⟩ <;>
    simp [Module.parseBody, hidx, hb, exportString]

/-- Witness for C6: an object whose `body` attribute is undefined is
left exactly as it was (as in `TestParseBodyWithUndefinedBody`). -/
theorem parseBody_body_noop_witness :
    Module.parseBody [(0, [("body", Value.undefined)])] [Value.obj 0] 0
      = Except.ok [(0, [("body", Value.undefined)])] :=
  parseBody_body_noop [(0, [("body", Value.undefined)])] [Value.obj 0] 0 0 rfl
    (Or.inr (Or.inl (by decide)))

/-- Claim C7: a request-description argument whose `body` attribute
holds a text value keeps that exact text under any number of
applications of body normalization (0, 1, or repeated) — the
normalization of text bodies is an idempotent verbatim round-trip. -/
theorem parseBody_text_roundtrip (heap : Heap) (args : List Value) (index : Nat)
    (id : Nat) (s : String)
    (hidx : args[index]? = some (Value.obj id))
    (hbody : heapGet heap id "body" = some (Value.str s)) :
    ∀ n, heapGet (parseBodyIter n heap args index) id "body"
      = some (Value.str s) := by
  intro n
  induction n generalizing heap with
  | zero => exact hbody
  | succ n ih =>
    have hex : ∃ fs, heapObj heap id = some fs := by
      cases hobj : heapObj heap id with
      | none => simp [heapGet, hobj] at hbody
      | some fs => exact ⟨fs, rfl⟩
    obtain ⟨fs, hfs⟩ := hex
    have hrun : parseBodyRun heap args index
        = heapSet heap id "body" (Value.str s) := by
      unfold parseBodyRun
      rw [parseBody_str_eq heap args index id s hidx hbody]
    have hnew : heapGet (heapSet heap id "body" (Value.str s)) id "body"
        = some (Value.str s) :=
      heapGet_heapSet heap id "body" (Value.str s) fs hfs
    show heapGet (parseBodyIter n (parseBodyRun heap args index) args index)
      id "body" = some (Value.str s)
    rw [hrun]
    exact ih _ hnew

/-- Witness for C7: the body `raw body content` of
`TestParseBodyWithStringBody` survives two rounds of normalization
verbatim. -/
theorem parseBody_text_roundtrip_witness :
    heapGet
      (parseBodyIter 2 [(0, [("body", Value.str "raw body content")])]
        [Value.obj 0] 0) 0 "body"
      = some (Value.str "raw body content") :=
  parseBody_text_roundtrip [(0, [("body", Value.str "raw body content")])]
    [Value.obj 0] 0 0 "raw body content" rfl (by decide) 2

/-- Claim C8: once the wrapper's mutation phase has produced the
(possibly mutated) heap and arguments, a failure of the original
callable is propagated to the wrapper's caller unchanged in kind and
content, and a success returns the original callable's value
unchanged. -/
theorem wrapper_propagates (mod : Module) (index : Nat) (original : Callable)
    (recv : Value) (heap : Heap) (args : List Value)
    (heap1 : Heap) (args1 : List Value)
    (hmut : mod.applyMutations index heap args = Except.ok (heap1, args1)) :
    (∀ e, original mod.globalObj heap1 args1 = Except.error e →
        mod.wrapper index original recv heap args = Except.error e) ∧
    (∀ v, original mod.globalObj heap1 args1 = Except.ok v →
        mod.wrapper index original recv heap args = Except.ok v) := by
  constructor
  · intro e he
    simp [Module.wrapper, hmut, he]
  · intro v hv
    simp [Module.wrapper, hmut, hv]

/-- Witness for C8: a failing original callable makes the wrapped call
fail with the very same error. -/
theorem wrapper_propagates_witness :
    exModule.wrapper 0 failCallable Value.undefined [] [Value.num 1]
      = Except.error "boom" :=
  (wrapper_propagates exModule 0 failCallable Value.undefined [] [Value.num 1]
      [] [Value.num 1] rfl).1 "boom" rfl

/-- Claim C9: a wrapped call with more arguments than the configured
index passes every argument other than the one at `index` to the
original callable unchanged, preserves the argument count, and invokes
the original against the runtime's global receiver (`mod.globalObj`),
for some heap produced by body normalization. -/
theorem wrapper_frame (mod : Module) (index : Nat) (original : Callable)
    (recv : Value) (heap : Heap) (args : List Value)
    (h : index < args.length) :
    ∃ heap1,
      mod.wrapper index original recv heap args
        = original mod.globalObj heap1 (mod.rewriteArgs args index) ∧
      (mod.rewriteArgs args index).length = args.length ∧
      ∀ j, j ≠ index → (mod.rewriteArgs args index)[j]? = args[j]? := by
  have hlen : index < (mod.rewriteArgs args index).length := by
    rw [rewriteArgs_length]
    exact h
  obtain ⟨heap1, hok⟩ := parseBody_isOk heap _ index hlen
  refine ⟨heap1, ?_, rewriteArgs_length mod args index,
    fun j hj => rewriteArgs_get_ne mod args index j hj⟩
  simp [Module.wrapper, Module.applyMutations, h, hok, Except.map]

/-- Witness for C9 at a two-argument call (URL then a number): count
preserved, the argument at index 1 untouched, original invoked against
the global receiver. -/
theorem wrapper_frame_witness :
    ∃ heap1,
      exModule.wrapper 0 idCallable Value.undefined []
          [Value.str "https://example.com", Value.num 7]
        = idCallable exModule.globalObj heap1
            (exModule.rewriteArgs [Value.str "https://example.com", Value.num 7] 0) ∧
      (exModule.rewriteArgs [Value.str "https://example.com", Value.num 7] 0).length
        = [Value.str "https://example.com", Value.num 7].length ∧
      ∀ j, j ≠ 0 →
        (exModule.rewriteArgs [Value.str "https://example.com", Value.num 7] 0)[j]?
          = [Value.str "https://example.com", Value.num 7][j]? :=
  wrapper_frame exModule 0 idCallable Value.undefined []
    [Value.str "https://example.com", Value.num 7] (by decide)

/-- Claim C10: a request-description argument whose `body` attribute is
the JavaScript `null` (distinct from undefined and from an absent
attribute) is skipped silently: `null` passes the nil/undefined check
but fails the strict string export, so `parseBody` performs no mutation
and raises no error. -/
theorem parseBody_null_body (heap : Heap) (args : List Value) (index : Nat)
    (id : Nat) (hidx : args[index]? = some (Value.obj id))
    (hbody : heapGet heap id "body" = some Value.null) :
    Module.parseBody heap args index = Except.ok heap := by
  simp [Module.parseBody, hidx, hbody, exportString]

/-- Witness for C10: an object with `body` set to `null` is left exactly
as it was. -/
theorem parseBody_null_body_witness :
    Module.parseBody [(0, [("body", Value.null)])] [Value.obj 0] 0
      = Except.ok [(0, [("body", Value.null)])] :=
  parseBody_null_body [(0, [("body", Value.null)])] [Value.obj 0] 0 0 rfl
    (by decide)

end Mock
